import Mathlib

/-
  Verification of rocket-include-dir: a bridge between an embedded directory
  tree (include_dir) and the Rocket web framework, serving static files
  compiled into the binary.

  The core under verification is StaticFiles::handle in src/lib.rs, together
  with respond_with and the route constructors. External collaborators
  (the Rocket segment guard, the include_dir tree lookups, the content-type
  table, URI surgery) are modelled from the specification, as marked on each
  definition.

  Bytes are modelled as Nat, path segments as String, and the raw URI path
  as a list of characters.
-/

namespace RocketIncludeDir

/-- An entry of the embedded tree: a file with an immutable byte payload, or
a directory holding named children. Mirrors the include_dir tagged union of
File and Dir consumed read-only by the responder. -/
inductive Entry where
  | file (contents : List Nat)
  | dir (entries : List (String × Entry))

/-- A directory is a list of named children. -/
abbrev Dir := List (String × Entry)

/-- Mirrors DirEntry::as_file: the payload when the entry is a file, none
when it is a directory. -/
def Entry.asFile : Entry → Option (List Nat)
  | .file c => some c
  | .dir _ => none

/-- Mirrors DirEntry::as_dir. -/
def Entry.asDir : Entry → Option Dir
  | .file _ => none
  | .dir es => some es

/-- Modelled from the spec: get-named-entry-within-directory of the embedded
tree collaborator (get_entry with a single name), a lookup of a direct child
by name. -/
def getEntry (entries : Dir) (name : String) : Option Entry :=
  match entries with
  | [] => none
  | (n, e) :: rest => if n = name then some e else getEntry rest name

/-- Modelled from the spec: resolve a relative path, segment by segment,
inside the embedded tree (the shared walk behind lookup-file-by-path and
lookup-subdirectory-by-path). The empty path resolves to the entry itself. -/
def resolve : List String → Entry → Option Entry
  | [], e => some e
  | _ :: _, .file _ => none
  | n :: rest, .dir entries =>
      match getEntry entries n with
      | some e => resolve rest e
      | none => none

/-- Modelled from the spec: lookup-subdirectory-by-path (Dir::get_dir). -/
def getDir (root : Dir) (p : List String) : Option Dir :=
  match resolve p (.dir root) with
  | some (.dir d) => some d
  | _ => none

/-- Modelled from the spec: lookup-file-by-path (Dir::get_file). -/
def getFile (root : Dir) (p : List String) : Option (List Nat) :=
  match resolve p (.dir root) with
  | some (.file c) => some c
  | _ => none

/-- The three independent boolean flags of rocket fs Options used by the
responder. -/
structure Options where
  index : Bool
  dotFiles : Bool
  normalizeDirs : Bool
deriving DecidableEq

/-- Modelled from the spec: the default option set of the host framework
(directory indexing on, dotfiles off, no normalization). -/
def Options.default : Options :=
  { index := true, dotFiles := false, normalizeDirs := false }

/-- The part of a request the responder reads: the decoded path segments
after the mount point, the raw URI path (for the trailing-slash check), and
the query string. -/
structure Request where
  segments : List String
  uriPath : List Char
  query : Option (List Char)
deriving DecidableEq

/-- The redirect target produced by URI surgery: the new path plus the
preserved query component. -/
structure RedirectTarget where
  path : List Char
  query : Option (List Char)
deriving DecidableEq

/-- The observable outcome of one invocation of the handler: a 200 response
carrying the file bytes and an optional content type, a permanent redirect,
or a forward to the next handler. -/
inductive HandleResult where
  | serve (body : List Nat) (contentType : Option String)
  | redirectPermanent (target : RedirectTarget)
  | forward
deriving DecidableEq

/-- Modelled from the spec: the segment guard of step 1. A segment is
acceptable when it is nonempty, not exactly a dot or a double dot, and does
not begin with a dot unless DotFiles is set. -/
def okSegment (allowDot : Bool) (s : String) : Bool :=
  match s.data with
  | [] => false
  | c :: rest =>
      if c = '.' then
        allowDot && !(rest = []) && !(rest = ['.'])
      else true

/-- Modelled from the spec: Segments::to_path_buf, joining the incoming
segments into a relative path, rejecting the whole request path when any
segment fails the guard. -/
def toPathBuf (allowDot : Bool) (segs : List String) : Option (List String) :=
  if segs.all (okSegment allowDot) then some segs else none

/-- Modelled from the spec: validity of a URI path as the framework requires
it (begins with a slash, free of the query and fragment delimiters). -/
def validUriPath (p : List Char) : Bool :=
  p.head? = some '/' && p.all (fun c => !(c = '?') && !(c = '#'))

/-- The trailing-slash test on the raw request path (ends_with of the code). -/
def endsWithSlash (p : List Char) : Bool :=
  p.getLast? = some '/'

/-- Modelled from the spec: Uri::map_path appending a trailing slash, which
revalidates the new path and preserves the query and all other components.
A none result is the branch in which the expect in the code would panic. -/
def mapPathAddSlash (req : Request) : Option RedirectTarget :=
  if validUriPath (req.uriPath ++ ['/']) then
    some { path := req.uriPath ++ ['/'], query := req.query }
  else none

/-- Characters after the last dot of a component, none when no dot occurs. -/
def afterLastDot : List Char → Option (List Char)
  | [] => none
  | c :: rest =>
      match afterLastDot rest with
      | some e => some e
      | none => if c = '.' then some rest else none

/-- Mirrors Path::extension on the final path component: the portion after
the last dot, except that a leading dot with no further dot yields none. -/
def extensionOf (s : String) : Option String :=
  match s.data with
  | [] => none
  | c :: rest =>
      if c = '.' then (afterLastDot rest).map (fun e => String.mk e)
      else (afterLastDot (c :: rest)).map (fun e => String.mk e)

/-- Modelled from the spec: the standard extension to content-type table
(ContentType::from_extension); unrecognized extensions yield none. -/
def contentTypeFromExtension (e : String) : Option String :=
  if e = "txt" then some "text/plain"
  else if e = "html" then some "text/html"
  else if e = "htm" then some "text/html"
  else if e = "css" then some "text/css"
  else if e = "js" then some "application/javascript"
  else if e = "json" then some "application/json"
  else if e = "png" then some "image/png"
  else if e = "jpg" then some "image/jpeg"
  else if e = "jpeg" then some "image/jpeg"
  else if e = "gif" then some "image/gif"
  else if e = "svg" then some "image/svg+xml"
  else if e = "pdf" then some "application/pdf"
  else none

/-- Mirrors respond_with: the content type attached to a served file, derived
from the extension of the final segment of the path handed to respond_with,
left unset when the extension is absent or unrecognized. -/
def ctForPath (p : List String) : Option String :=
  match p.getLast? with
  | some s =>
      match extensionOf s with
      | some e => contentTypeFromExtension e
      | none => none
  | none => none

/-- Mirrors StaticFiles::handle. The result is an Option so that the single
potentially panicking operation (the expect on map_path in the NormalizeDirs
branch) is explicit: none is the panic, some is a returned outcome. -/
def handle (options : Options) (root : Dir) (req : Request) : Option HandleResult :=
  match toPathBuf options.dotFiles req.segments with
  | some p =>
      match (if p.isEmpty then some root else getDir root p) with
      | some d =>
          if options.normalizeDirs && !(endsWithSlash req.uriPath) then
            match mapPathAddSlash req with
            | some target => some (.redirectPermanent target)
            | none => none
          else if !options.index then
            some .forward
          else
            match (getEntry d "index.html").bind Entry.asFile with
            | some contents => some (.serve contents (ctForPath (p ++ ["index.html"])))
            | none => some .forward
      | none =>
          match getFile root p with
          | some contents => some (.serve contents (ctForPath p))
          | none => some .forward
  | none =>
      if options.index then
        match (getEntry root "index.html").bind Entry.asFile with
        | some contents => some (.serve contents (ctForPath ["index.html"]))
        | none => some .forward
      else some .forward

/-- Mirrors the StaticFiles responder value: a borrowed tree root, the
options, and the route rank. -/
structure StaticFiles where
  dir : Dir
  options : Options
  rank : Int

/-- Mirrors StaticFiles::DEFAULT_RANK. -/
def StaticFiles.DEFAULT_RANK : Int := 10

/-- Mirrors the From impl for a static Dir reference. -/
def StaticFiles.fromDir (d : Dir) : StaticFiles :=
  { dir := d, options := Options.default, rank := StaticFiles.DEFAULT_RANK }

/-- Mirrors StaticFiles::new. -/
def StaticFiles.new (d : Dir) (o : Options) : StaticFiles :=
  { dir := d, options := o, rank := StaticFiles.DEFAULT_RANK }

/-- Mirrors StaticFiles::options. -/
def StaticFiles.withOptions (s : StaticFiles) (o : Options) : StaticFiles :=
  { s with options := o }

/-- Mirrors StaticFiles::rank. -/
def StaticFiles.withRank (s : StaticFiles) (r : Int) : StaticFiles :=
  { s with rank := r }

/-- The HTTP methods a route can carry; the responder only ever registers
get. -/
inductive Method where
  | get
  | post
deriving DecidableEq

/-- A registered route as the host router sees it: rank, single method, path
pattern, and the handler value. -/
structure Route where
  rank : Int
  method : Method
  path : String
  handler : StaticFiles

/-- Mirrors Handler::handle being invoked on a responder value: the outcome
depends only on the options, the tree and the request. -/
def StaticFiles.handle (s : StaticFiles) (req : Request) : Option HandleResult :=
  RocketIncludeDir.handle s.options s.dir req

/-- Mirrors the From impl producing a single ranked wildcard GET route. -/
def routeOf (s : StaticFiles) : Route :=
  { rank := s.rank, method := .get, path := "/<path..>", handler := s }

/-- Mirrors the From impl producing the route list (a one-element vector). -/
def routesOf (s : StaticFiles) : List Route :=
  [routeOf s]

/-- A small concrete embedded tree used to instantiate the theorems: a root
index file, a plain text file, a subdirectory with its own index and a css
file, and a subdirectory whose entry named index.html is itself a
directory. -/
def demoRoot : Dir :=
  [("index.html", .file [60]),
   ("test.txt", .file [104, 105]),
   ("sub", .dir [("index.html", .file [1, 2]), ("inner.css", .file [9])]),
   ("weird", .dir [("index.html", .dir [])])]

/-- The subdirectory of the demo tree, as the tree lookup returns it. -/
def demoSub : Dir :=
  [("index.html", .file [1, 2]), ("inner.css", .file [9])]

/-- The malformed subdirectory of the demo tree, holding a directory named
index.html. -/
def demoWeird : Dir :=
  [("index.html", .dir [])]

/-- Options with only Index set. -/
def optsIndexOnly : Options := { index := true, dotFiles := false, normalizeDirs := false }

/-- Options with no flag set. -/
def optsNone : Options := { index := false, dotFiles := false, normalizeDirs := false }

/-- Options with only NormalizeDirs set. -/
def optsNorm : Options := { index := false, dotFiles := false, normalizeDirs := true }

/-- Options with Index and NormalizeDirs set. -/
def optsIndexNorm : Options := { index := true, dotFiles := false, normalizeDirs := true }

/-- Appending a trailing slash to a valid URI path yields a valid URI path,
so the revalidation inside the URI surgery cannot fail. -/
theorem valid_append_slash (p : List Char) (h : validUriPath p = true) :
    validUriPath (p ++ ['/']) = true := by
  unfold validUriPath at h ⊢
  simp only [Bool.and_eq_true] at h ⊢
  obtain ⟨h1, h2⟩ := h
  constructor
  · cases p with
    | nil => simp at h1
    | cons a t => simpa using h1
  · rw [List.all_append]
    simp [h2]

/-- A path that resolves to a file is nonempty and does not resolve to a
directory, so the handler takes its file branch. -/
theorem getFile_props (root : Dir) (p : List String) (c : List Nat)
    (h : getFile root p = some c) : p.isEmpty = false ∧ getDir root p = none := by
  constructor
  · cases p with
    | nil => simp [getFile, resolve] at h
    | cons a t => rfl
  · unfold getFile at h
    unfold getDir
    cases hr : resolve p (.dir root) with
    | none => simp [hr] at h
    | some e =>
      cases e with
      | file c2 => simp [hr]
      | dir d => simp [hr] at h

/-- One rejected segment makes the whole segment check fail. -/
theorem all_false_of_mem (allowDot : Bool) (l : List String) (s : String)
    (hs : s ∈ l) (hbad : okSegment allowDot s = false) :
    l.all (okSegment allowDot) = false := by
  cases hall : l.all (okSegment allowDot) with
  | false => rfl
  | true => exact absurd (List.all_eq_true.mp hall s hs) (by simp [hbad])

/-- A rejected segment list makes the path decoding fail. -/
theorem toPathBuf_none_of_bad (allowDot : Bool) (l : List String) (s : String)
    (hs : s ∈ l) (hbad : okSegment allowDot s = false) :
    toPathBuf allowDot l = none := by
  unfold toPathBuf
  rw [all_false_of_mem allowDot l s hs hbad]
  rfl

/-- The URI surgery of the NormalizeDirs branch succeeds on a valid request
path and preserves the query component. -/
theorem mapPathAddSlash_of_valid (req : Request) (h : validUriPath req.uriPath = true) :
    mapPathAddSlash req = some { path := req.uriPath ++ ['/'], query := req.query } := by
  unfold mapPathAddSlash
  rw [valid_append_slash req.uriPath h]
  rfl

/-- C2: for a request resolving to a directory of the embedded tree (or the
empty mount-root path), with NormalizeDirs set and the request path not
already ending in a slash, the handler produces a permanent redirect to the
same path with a trailing slash appended, preserving the query component,
regardless of the Index option and of whether an index file exists. The
validity hypothesis is the framework invariant that request paths are
well-formed. -/
theorem handle_normalizeDirs_redirect
    (opts : Options) (root : Dir) (req : Request) (p : List String)
    (hp : toPathBuf opts.dotFiles req.segments = some p)
    (hdir : (if p.isEmpty then some root else getDir root p).isSome = true)
    (hnorm : opts.normalizeDirs = true)
    (hslash : endsWithSlash req.uriPath = false)
    (hvalid : validUriPath req.uriPath = true) :
    handle opts root req
      = some (.redirectPermanent { path := req.uriPath ++ ['/'], query := req.query }) := by
  obtain ⟨d, hd⟩ := Option.isSome_iff_exists.mp hdir
  have hmp := mapPathAddSlash_of_valid req hvalid
  unfold handle
  simp only [hp]
  rw [hd]
  simp [hnorm, hslash, hmp]

/-- Claim C2 witness: a concrete directory request without a trailing slash
is redirected with the query preserved. -/
theorem handle_normalizeDirs_redirect_witness :
    handle optsIndexNorm demoRoot
        { segments := ["sub"], uriPath := "/sub".data, query := some "a=1".data }
      = some (.redirectPermanent { path := "/sub".data ++ ['/'], query := some "a=1".data }) :=
  handle_normalizeDirs_redirect optsIndexNorm demoRoot
    { segments := ["sub"], uriPath := "/sub".data, query := some "a=1".data }
    ["sub"] (by decide) (by decide) rfl (by decide) (by decide)

/-- C3: a request whose segments pass the guard and whose path resolves to a
file of the embedded tree is answered with a 200 response whose body is
exactly the embedded bytes, with the content type derived from the extension
of the final segment through the extension table, unset when the extension
is unrecognized or absent. -/
theorem handle_file_request
    (opts : Options) (root : Dir) (req : Request) (p : List String) (c : List Nat)
    (hp : toPathBuf opts.dotFiles req.segments = some p)
    (hf : getFile root p = some c) :
    handle opts root req = some (.serve c (ctForPath p)) := by
  obtain ⟨hne, hdn⟩ := getFile_props root p c hf
  unfold handle
  simp [hp, hne, hdn, hf]

/-- Claim C3 witness: a concrete nested css file is served byte for byte
with its content type. -/
theorem handle_file_request_witness :
    handle Options.default demoRoot
        { segments := ["sub", "inner.css"], uriPath := "/sub/inner.css".data, query := none }
      = some (.serve [9] (ctForPath ["sub", "inner.css"])) :=
  handle_file_request Options.default demoRoot
    { segments := ["sub", "inner.css"], uriPath := "/sub/inner.css".data, query := none }
    ["sub", "inner.css"] [9] (by decide) (by decide)

/-- Claim C1 counterexample: a request containing a double-dot segment, with
DotFiles unset, Index set and an index file at the tree root, is answered
with a 200 response serving the root index file, not a forward as the claim
states. -/
theorem guard_rejected_counterexample :
    handle optsIndexOnly demoRoot
        { segments := [".."], uriPath := "/..".data, query := none }
      = some (.serve [60] (some "text/html")) ∧
      some (HandleResult.serve [60] (some "text/html")) ≠ some HandleResult.forward :=
  ⟨by decide, by decide⟩

/-- C1 (amended): for a request containing a rejected segment (empty,
exactly a dot or a double dot, or leading-dot with DotFiles unset), the
handler never redirects and forwards, except that with Index set and a file
named index.html at the tree root it serves that root index file: the
outcome is exactly the root index fallback of the failed-decoding branch. -/
theorem guard_rejected_behavior
    (opts : Options) (root : Dir) (req : Request) (s : String)
    (hs : s ∈ req.segments) (hbad : okSegment opts.dotFiles s = false) :
    handle opts root req
      = (if opts.index then
          match (getEntry root "index.html").bind Entry.asFile with
          | some c => some (.serve c (some "text/html"))
          | none => some .forward
        else some .forward) := by
  have hnone := toPathBuf_none_of_bad opts.dotFiles req.segments s hs hbad
  have hct : ctForPath ["index.html"] = some "text/html" := by decide
  unfold handle
  simp only [hnone, hct]

/-- Claim C1 witness: a concrete dotfile request with DotFiles unset and
Index unset forwards. -/
theorem guard_rejected_behavior_witness :
    handle optsNone demoRoot
        { segments := [".hidden"], uriPath := "/.hidden".data, query := none }
      = (if optsNone.index then
          match (getEntry demoRoot "index.html").bind Entry.asFile with
          | some c => some (.serve c (some "text/html"))
          | none => some .forward
        else some .forward) :=
  guard_rejected_behavior optsNone demoRoot
    { segments := [".hidden"], uriPath := "/.hidden".data, query := none }
    ".hidden" (by decide) (by decide)

/-- Claim C4 counterexample: a request for an existing directory without a
trailing slash, with Index unset and NormalizeDirs set, is answered with a
permanent redirect, not a forward as the claim states. -/
theorem dir_index_unset_counterexample :
    handle optsNorm demoRoot
        { segments := ["sub"], uriPath := "/sub".data, query := none }
      = some (.redirectPermanent { path := "/sub/".data, query := none }) ∧
      some (HandleResult.redirectPermanent { path := "/sub/".data, query := none })
        ≠ some HandleResult.forward :=
  ⟨by decide, by decide⟩

/-- C4 (amended): for a request resolving to a directory of the embedded
tree, with Index unset, the handler forwards regardless of whether an index
file exists there, provided no NormalizeDirs redirect applies (NormalizeDirs
unset or the request path already ending in a slash). -/
theorem dir_index_unset_forwards
    (opts : Options) (root : Dir) (req : Request) (p : List String)
    (hp : toPathBuf opts.dotFiles req.segments = some p)
    (hdir : (if p.isEmpty then some root else getDir root p).isSome = true)
    (hidx : opts.index = false)
    (hnored : opts.normalizeDirs = false ∨ endsWithSlash req.uriPath = true) :
    handle opts root req = some .forward := by
  obtain ⟨d, hd⟩ := Option.isSome_iff_exists.mp hdir
  have hcond : (opts.normalizeDirs && !(endsWithSlash req.uriPath)) = false := by
    rcases hnored with h | h <;> simp [h]
  unfold handle
  simp only [hp]
  rw [hd]
  simp [hcond, hidx]

/-- Claim C4 witness: a concrete directory request with a trailing slash,
Index unset and an index file present, forwards. -/
theorem dir_index_unset_forwards_witness :
    handle optsNone demoRoot
        { segments := ["sub"], uriPath := "/sub/".data, query := none }
      = some .forward :=
  dir_index_unset_forwards optsNone demoRoot
    { segments := ["sub"], uriPath := "/sub/".data, query := none }
    ["sub"] (by decide) (by decide) rfl (Or.inl rfl)

/-- Claim C5 counterexample: a mount-root request (empty remaining path)
whose raw path lacks a trailing slash, with Index unset and NormalizeDirs
set, is answered with a permanent redirect, not a forward as the claim
states. -/
theorem mount_root_counterexample :
    handle optsNorm demoRoot
        { segments := [], uriPath := "/m".data, query := none }
      = some (.redirectPermanent { path := "/m/".data, query := none }) ∧
      some (HandleResult.redirectPermanent { path := "/m/".data, query := none })
        ≠ some HandleResult.forward :=
  ⟨by decide, by decide⟩

/-- C5 (amended): for a mount-root request (empty remaining path), provided
no NormalizeDirs redirect applies, the outcome is exactly as the claim
states: with Index unset it forwards, with Index set it serves the tree-root
index.html file when one exists (a 200 response with its content) and
forwards when none exists. -/
theorem mount_root_behavior
    (opts : Options) (root : Dir) (req : Request)
    (hempty : req.segments = [])
    (hnored : opts.normalizeDirs = false ∨ endsWithSlash req.uriPath = true) :
    handle opts root req
      = (if opts.index then
          match (getEntry root "index.html").bind Entry.asFile with
          | some c => some (.serve c (some "text/html"))
          | none => some .forward
        else some .forward) := by
  have hp : toPathBuf opts.dotFiles req.segments = some [] := by
    rw [hempty]
    rfl
  have hcond : (opts.normalizeDirs && !(endsWithSlash req.uriPath)) = false := by
    rcases hnored with h | h <;> simp [h]
  have hct : ctForPath ([] ++ ["index.html"]) = some "text/html" := by decide
  unfold handle
  simp only [hp, List.isEmpty_nil, if_true, hcond, Bool.false_eq_true, if_false, hct]
  cases hix : opts.index with
  | false => simp
  | true =>
      simp only [if_true]
      cases (getEntry root "index.html").bind Entry.asFile <;> simp [hct]

/-- Claim C5 witness: the mount root with Index set and a root index file is
served that file. -/
theorem mount_root_behavior_witness :
    handle optsIndexOnly demoRoot
        { segments := [], uriPath := "/".data, query := none }
      = (if optsIndexOnly.index then
          match (getEntry demoRoot "index.html").bind Entry.asFile with
          | some c => some (.serve c (some "text/html"))
          | none => some .forward
        else some .forward) :=
  mount_root_behavior optsIndexOnly demoRoot
    { segments := [], uriPath := "/".data, query := none }
    rfl (Or.inl rfl)

/-- C6: for a request resolving to a directory, with Index set and no
NormalizeDirs redirect applying, the handler looks up the entry named
index.html as a direct child of the resolved directory: when it is a file it
is served using the path of the directory joined with index.html for
content-type inference, when no such file exists the handler forwards. -/
theorem dir_index_lookup
    (opts : Options) (root : Dir) (req : Request) (p : List String) (d : Dir)
    (hp : toPathBuf opts.dotFiles req.segments = some p)
    (hd : (if p.isEmpty then some root else getDir root p) = some d)
    (hnored : opts.normalizeDirs = false ∨ endsWithSlash req.uriPath = true)
    (hidx : opts.index = true) :
    handle opts root req
      = (match (getEntry d "index.html").bind Entry.asFile with
        | some c => some (.serve c (ctForPath (p ++ ["index.html"])))
        | none => some .forward) := by
  have hcond : (opts.normalizeDirs && !(endsWithSlash req.uriPath)) = false := by
    rcases hnored with h | h <;> simp [h]
  unfold handle
  simp only [hp]
  rw [hd]
  simp only [hcond, Bool.false_eq_true, if_false, hidx, Bool.not_true]

/-- Claim C6 witness: the demo subdirectory requested with a trailing slash
and Index set is served its own index file. -/
theorem dir_index_lookup_witness :
    handle optsIndexOnly demoRoot
        { segments := ["sub"], uriPath := "/sub/".data, query := none }
      = (match (getEntry demoSub "index.html").bind Entry.asFile with
        | some c => some (.serve c (ctForPath (["sub"] ++ ["index.html"])))
        | none => some .forward) :=
  dir_index_lookup optsIndexOnly demoRoot
    { segments := ["sub"], uriPath := "/sub/".data, query := none }
    ["sub"] demoSub (by decide) rfl (Or.inl rfl) rfl

/-- C7: a responder built from a tree reference alone or through new has the
default rank 10, and converting a responder into routes yields exactly one
route, bound to the wildcard path pattern, with get as its sole method, at
the rank configured on the responder. -/
theorem construction_and_routes (d : Dir) (o : Options) (s : StaticFiles) :
    (StaticFiles.fromDir d).rank = 10 ∧ (StaticFiles.new d o).rank = 10 ∧
      routesOf s
        = [{ rank := s.rank, method := Method.get, path := "/<path..>", handler := s }] :=
  ⟨rfl, rfl, rfl⟩

/-- C8: the handler is deterministic and stateless: two invocations on equal
requests, by responders holding the same options and the same tree (the rank
may even differ), produce identical outcomes. -/
theorem handle_deterministic
    (s1 s2 : StaticFiles) (r1 r2 : Request)
    (ho : s1.options = s2.options) (hd : s1.dir = s2.dir) (hr : r1 = r2) :
    s1.handle r1 = s2.handle r2 := by
  unfold StaticFiles.handle
  rw [ho, hd, hr]

/-- Claim C8 witness: the same concrete request handled twice, by the
responder and a copy differing only in rank, yields the same outcome. -/
theorem handle_deterministic_witness :
    (StaticFiles.new demoRoot Options.default).handle
        { segments := ["test.txt"], uriPath := "/test.txt".data, query := none }
      = ((StaticFiles.new demoRoot Options.default).withRank 5).handle
        { segments := ["test.txt"], uriPath := "/test.txt".data, query := none } :=
  handle_deterministic (StaticFiles.new demoRoot Options.default)
    ((StaticFiles.new demoRoot Options.default).withRank 5)
    { segments := ["test.txt"], uriPath := "/test.txt".data, query := none }
    { segments := ["test.txt"], uriPath := "/test.txt".data, query := none }
    rfl rfl rfl

/-- C9: on any request whose raw path is well-formed (the framework
invariant), the handler is total: every branch, in particular the expect on
the URI surgery of the NormalizeDirs branch, returns an outcome and never
panics; every resolution failure ends in a forward, never an unhandled
fault. -/
theorem handle_total
    (opts : Options) (root : Dir) (req : Request)
    (hvalid : validUriPath req.uriPath = true) :
    (handle opts root req).isSome = true := by
  have hmp := mapPathAddSlash_of_valid req hvalid
  unfold handle
  repeat' split
  all_goals simp_all

/-- Claim C9 witness: totality at a concrete request taking the redirect
branch through the URI surgery. -/
theorem handle_total_witness :
    (handle optsIndexNorm demoRoot
        { segments := ["sub"], uriPath := "/sub".data, query := none }).isSome = true :=
  handle_total optsIndexNorm demoRoot
    { segments := ["sub"], uriPath := "/sub".data, query := none }
    (by decide)

/-- Claim C10 counterexample: a request without a trailing slash for the
demo directory whose index.html entry is a subdirectory, with Index and
NormalizeDirs set, is answered with a permanent redirect, not a forward as
the unqualified claim states. -/
theorem index_dir_entry_counterexample :
    handle optsIndexNorm demoRoot
        { segments := ["weird"], uriPath := "/weird".data, query := none }
      = some (.redirectPermanent { path := "/weird/".data, query := none }) ∧
      some (HandleResult.redirectPermanent { path := "/weird/".data, query := none })
        ≠ some HandleResult.forward :=
  ⟨by decide, by decide⟩

/-- C10 (amended): when the resolved directory holds an entry named
index.html that is itself a subdirectory, the handler forwards rather than
serving it, whatever the Index option says, provided no NormalizeDirs
redirect applies (NormalizeDirs unset or the request path already ending in
a slash): the index lookup succeeds only for a file entry. -/
theorem index_dir_entry_forwards
    (opts : Options) (root : Dir) (req : Request) (p : List String) (d sub : Dir)
    (hp : toPathBuf opts.dotFiles req.segments = some p)
    (hd : (if p.isEmpty then some root else getDir root p) = some d)
    (hnored : opts.normalizeDirs = false ∨ endsWithSlash req.uriPath = true)
    (hie : getEntry d "index.html" = some (.dir sub)) :
    handle opts root req = some .forward := by
  have hcond : (opts.normalizeDirs && !(endsWithSlash req.uriPath)) = false := by
    rcases hnored with h | h <;> simp [h]
  unfold handle
  simp only [hp]
  rw [hd]
  cases hix : opts.index <;> simp [hcond, hix, hie, Entry.asFile]

/-- Claim C10 witness: the demo directory whose index.html entry is a
subdirectory forwards even with Index set. -/
theorem index_dir_entry_forwards_witness :
    handle optsIndexOnly demoRoot
        { segments := ["weird"], uriPath := "/weird/".data, query := none }
      = some .forward :=
  index_dir_entry_forwards optsIndexOnly demoRoot
    { segments := ["weird"], uriPath := "/weird/".data, query := none }
    ["weird"] demoWeird [] (by decide) rfl (Or.inl rfl) rfl

end RocketIncludeDir
